import Mathlib

/-!
Shallow embedding of `src/TileSystem.js` (Bing Maps tile system utilities).

The JavaScript source is a port of the Microsoft tile-system reference
implementation.  Numbers that the source manipulates with 32-bit bitwise
operators (`<<`, `&`, `|`) are modelled with explicit two's-complement
reduction where overflow can occur (`mapSize`), and with `Nat` bitwise
operations where the documented domains keep every value far below 2^31
(QuadKey encode/decode, levels up to 23).  JavaScript floating-point
division appears only in `pixelXYToTileXY`, where the operands are integer
pixel coordinates and the divisor 256 is a power of two, so the IEEE-754
result is exact and `ℚ` models it faithfully.  Strings are modelled as
`List Char` and the thrown `ArgumentException` as the `Except.error` case.
-/

namespace TileSystem

/-- Reduction of an integer to its signed 32-bit value, the result type
of every JavaScript 32-bit bitwise operator. -/
def toInt32 (n : Int) : Int := (n + 2 ^ 31) % 2 ^ 32 - 2 ^ 31

/-- JavaScript `a << b` for an `a` already in int32 range: the shift count
is taken mod 32 and the product is wrapped to a signed 32-bit value. -/
def jsShl32 (a : Int) (b : Nat) : Int := toInt32 (a * 2 ^ (b % 32))

/-- Function `clip(n, minValue, maxValue)` from the source: clips a number to the
specified minimum and maximum values via `Math.min(Math.max(n, minValue), maxValue)`. -/
def clip (n minValue maxValue : ℚ) : ℚ := min (max n minValue) maxValue

/-- Function `mapSize(levelOfDetail)` from the source: `parseInt(256 << levelOfDetail)`.
JavaScript `<<` is a 32-bit signed shift; `parseInt` on an integral number
is the identity. -/
def mapSize (levelOfDetail : Nat) : Int := jsShl32 256 levelOfDetail

/-- Function `pixelXYToTileXY(pixelX, pixelY)` from the source: plain JavaScript
division of each pixel coordinate by 256 (no truncation in the source).
Division of an integer-valued double by the power of two 256 is exact,
so `ℚ` division is a faithful model. -/
def pixelXYToTileXY (pixelX pixelY : ℚ) : ℚ × ℚ := (pixelX / 256, pixelY / 256)

/-- Function `tileXYToPixelXY(tileX, tileY)` from the source: each tile coordinate
times 256. -/
def tileXYToPixelXY (tileX tileY : ℚ) : ℚ × ℚ := (tileX * 256, tileY * 256)

/-- The digit appended for one loop iteration of `tileXYToQuadKey`:
`digit` starts at `'0'`, is incremented once when `tileX & mask` is set and
twice more when `tileY & mask` is set (JavaScript coerces `'0'` to the
number 0 on the first `++`). -/
def quadDigitVal (tileX tileY mask : Nat) : Nat :=
  (if tileX &&& mask ≠ 0 then 1 else 0) + (if tileY &&& mask ≠ 0 then 2 else 0)

/-- Function `tileXYToQuadKey(tileX, tileY, levelOfDetail)` from the source: the loop
runs `i = levelOfDetail` down to `1` with `mask = 1 << (i - 1)`, appending
one digit character per iteration (most-significant bit first). -/
def tileXYToQuadKey (tileX tileY : Nat) : Nat → List Char
  | 0 => []
  | i + 1 => Nat.digitChar (quadDigitVal tileX tileY (1 <<< i)) :: tileXYToQuadKey tileX tileY i

/-- The loop of `quadKeyToTileXY`: characters are consumed left to right;
the character at position `levelOfDetail - i` is decoded with
`mask = 1 << (i - 1)`, i.e. the mask for a character is `2 ^ (length of the
rest of the string)`.  An unrecognised character hits the `default:` branch,
which throws `ArgumentException("Invalid QuadKey digit sequence.")`. -/
def quadKeyToTileXYAux (tileX tileY : Nat) : List Char → Except String (Nat × Nat)
  | [] => .ok (tileX, tileY)
  | c :: rest =>
    let mask := 1 <<< rest.length
    if c = '0' then quadKeyToTileXYAux tileX tileY rest
    else if c = '1' then quadKeyToTileXYAux (tileX ||| mask) tileY rest
    else if c = '2' then quadKeyToTileXYAux tileX (tileY ||| mask) rest
    else if c = '3' then quadKeyToTileXYAux (tileX ||| mask) (tileY ||| mask) rest
    else .error "Invalid QuadKey digit sequence."

/-- Function `quadKeyToTileXY(quadKey)` from the source: `levelOfDetail` is the string
length, `tileX` and `tileY` start at 0 and accumulate through the loop, and
the triple `[tileX, tileY, levelOfDetail]` is returned. -/
def quadKeyToTileXY (quadKey : List Char) : Except String (Nat × Nat × Nat) :=
  match quadKeyToTileXYAux 0 0 quadKey with
  | .ok (tileX, tileY) => .ok (tileX, tileY, quadKey.length)
  | .error e => .error e

/-! ### Helper lemmas about the QuadKey encoder and decoder -/

theorem tileXYToQuadKey_length (x y : Nat) : ∀ L, (tileXYToQuadKey x y L).length = L := by
  intro L
  induction L with
  | zero => rfl
  | succ M ih => simp [tileXYToQuadKey, ih]

theorem shiftRight_and_one (x i : Nat) : (x >>> i) &&& 1 = (x.testBit i).toNat := by
  rw [Nat.and_one_is_mod, Nat.shiftRight_eq_div_pow, Nat.testBit_to_div_mod]
  rcases Nat.mod_two_eq_zero_or_one (x / 2 ^ i) with h | h <;> simp [h]

theorem and_two_pow_ne_zero (x i : Nat) : (x &&& 2 ^ i ≠ 0) ↔ x.testBit i = true := by
  rw [Nat.and_two_pow]
  rcases hx : x.testBit i
  · simp
  · simp [(Nat.two_pow_pos i).ne']

theorem quadDigitVal_two_pow (x y i : Nat) :
    quadDigitVal x y (2 ^ i) = (x.testBit i).toNat + 2 * (y.testBit i).toNat := by
  unfold quadDigitVal
  rcases hx : x.testBit i <;> rcases hy : y.testBit i <;>
    simp [and_two_pow_ne_zero, hx, hy]

theorem or_two_pow_or_mod_of_testBit (a x L : Nat) (h : x.testBit L = true) :
    (a ||| 2 ^ L) ||| x % 2 ^ L = a ||| x % 2 ^ (L + 1) := by
  apply Nat.eq_of_testBit_eq
  intro i
  by_cases hiL : i = L
  · subst hiL
    simp [Nat.testBit_or, Nat.testBit_mod_two_pow, h, Nat.testBit_two_pow_self]
  · have hlt : (i < L + 1) = (i < L) := by
      apply propext; omega
    simp [Nat.testBit_or, Nat.testBit_mod_two_pow,
      Nat.testBit_two_pow_of_ne (Ne.symm hiL), hlt, Bool.or_assoc]

theorem or_mod_of_not_testBit (a x L : Nat) (h : x.testBit L = false) :
    a ||| x % 2 ^ L = a ||| x % 2 ^ (L + 1) := by
  apply Nat.eq_of_testBit_eq
  intro i
  by_cases hiL : i = L
  · subst hiL
    simp [Nat.testBit_or, Nat.testBit_mod_two_pow, h]
  · have hlt : (i < L + 1) = (i < L) := by
      apply propext; omega
    simp [Nat.testBit_or, Nat.testBit_mod_two_pow, hlt]

theorem quadKeyToTileXYAux_cons0 (a b : Nat) (rest : List Char) :
    quadKeyToTileXYAux a b ('0' :: rest) = quadKeyToTileXYAux a b rest := rfl

theorem quadKeyToTileXYAux_cons1 (a b : Nat) (rest : List Char) :
    quadKeyToTileXYAux a b ('1' :: rest) =
      quadKeyToTileXYAux (a ||| 1 <<< rest.length) b rest := rfl

theorem quadKeyToTileXYAux_cons2 (a b : Nat) (rest : List Char) :
    quadKeyToTileXYAux a b ('2' :: rest) =
      quadKeyToTileXYAux a (b ||| 1 <<< rest.length) rest := rfl

theorem quadKeyToTileXYAux_cons3 (a b : Nat) (rest : List Char) :
    quadKeyToTileXYAux a b ('3' :: rest) =
      quadKeyToTileXYAux (a ||| 1 <<< rest.length) (b ||| 1 <<< rest.length) rest := rfl

theorem quadKeyToTileXYAux_encode (x y : Nat) :
    ∀ L a b, quadKeyToTileXYAux a b (tileXYToQuadKey x y L) =
      .ok (a ||| x % 2 ^ L, b ||| y % 2 ^ L) := by
  intro L
  induction L with
  | zero =>
    intro a b
    simp [tileXYToQuadKey, quadKeyToTileXYAux, Nat.mod_one]
  | succ M ih =>
    intro a b
    rw [tileXYToQuadKey]
    rcases hx : x.testBit M <;> rcases hy : y.testBit M
    · have hc : Nat.digitChar (quadDigitVal x y (1 <<< M)) = '0' := by
        rw [Nat.one_shiftLeft, quadDigitVal_two_pow, hx, hy]
        decide
      rw [hc, quadKeyToTileXYAux_cons0, ih,
        or_mod_of_not_testBit a x M hx, or_mod_of_not_testBit b y M hy]
    · have hc : Nat.digitChar (quadDigitVal x y (1 <<< M)) = '2' := by
        rw [Nat.one_shiftLeft, quadDigitVal_two_pow, hx, hy]
        decide
      rw [hc, quadKeyToTileXYAux_cons2, tileXYToQuadKey_length, Nat.one_shiftLeft, ih,
        or_mod_of_not_testBit a x M hx, or_two_pow_or_mod_of_testBit b y M hy]
    · have hc : Nat.digitChar (quadDigitVal x y (1 <<< M)) = '1' := by
        rw [Nat.one_shiftLeft, quadDigitVal_two_pow, hx, hy]
        decide
      rw [hc, quadKeyToTileXYAux_cons1, tileXYToQuadKey_length, Nat.one_shiftLeft, ih,
        or_two_pow_or_mod_of_testBit a x M hx, or_mod_of_not_testBit b y M hy]
    · have hc : Nat.digitChar (quadDigitVal x y (1 <<< M)) = '3' := by
        rw [Nat.one_shiftLeft, quadDigitVal_two_pow, hx, hy]
        decide
      rw [hc, quadKeyToTileXYAux_cons3, tileXYToQuadKey_length, Nat.one_shiftLeft, ih,
        or_two_pow_or_mod_of_testBit a x M hx, or_two_pow_or_mod_of_testBit b y M hy]

theorem tileXYToQuadKey_get? (x y : Nat) :
    ∀ L i, i < L → (tileXYToQuadKey x y L).get? (L - 1 - i) =
      some (Nat.digitChar (quadDigitVal x y (2 ^ i))) := by
  intro L
  induction L with
  | zero => intro i hi; omega
  | succ M ih =>
    intro i hi
    rcases Nat.eq_or_lt_of_le (Nat.le_of_lt_succ hi) with h | h
    · subst h
      have h0 : i + 1 - 1 - i = 0 := by omega
      rw [tileXYToQuadKey, h0, Nat.one_shiftLeft]
      rfl
    · have h1 : M + 1 - 1 - i = (M - 1 - i) + 1 := by omega
      rw [tileXYToQuadKey, h1]
      exact ih i h

theorem tileXYToQuadKey_mem (x y : Nat) :
    ∀ L, ∀ c ∈ tileXYToQuadKey x y L, c = '0' ∨ c = '1' ∨ c = '2' ∨ c = '3' := by
  intro L
  induction L with
  | zero => intro c hc; simp [tileXYToQuadKey] at hc
  | succ M ih =>
    intro c hc
    rw [tileXYToQuadKey] at hc
    rcases List.mem_cons.mp hc with h | h
    · subst h
      unfold quadDigitVal
      split_ifs <;> decide
    · exact ih c h

theorem quadKeyToTileXYAux_error_iff :
    ∀ (cs : List Char) (a b : Nat),
      (∃ e, quadKeyToTileXYAux a b cs = .error e) ↔
        ∃ c ∈ cs, ¬(c = '0' ∨ c = '1' ∨ c = '2' ∨ c = '3') := by
  intro cs
  induction cs with
  | nil => intro a b; simp [quadKeyToTileXYAux]
  | cons c rest ih =>
    intro a b
    simp only [quadKeyToTileXYAux]
    split_ifs with h0 h1 h2 h3
    · subst h0; simp [ih]
    · subst h1; simp [ih]
    · subst h2; simp [ih]
    · subst h3; simp [ih]
    · constructor
      · intro _
        exact ⟨c, List.mem_cons_self c rest, by tauto⟩
      · intro _
        exact ⟨"Invalid QuadKey digit sequence.", rfl⟩

theorem quadKeyToTileXYAux_ok_bound (k : Nat) :
    ∀ (cs : List Char), cs.length ≤ k →
      (∀ c ∈ cs, c = '0' ∨ c = '1' ∨ c = '2' ∨ c = '3') →
      ∀ a b, a < 2 ^ k → b < 2 ^ k →
      ∃ tx ty, quadKeyToTileXYAux a b cs = .ok (tx, ty) ∧ tx < 2 ^ k ∧ ty < 2 ^ k := by
  intro cs
  induction cs with
  | nil => intro _ _ a b ha hb; exact ⟨a, b, rfl, ha, hb⟩
  | cons c rest ih =>
    intro hlen hval a b ha hb
    have hmask : (1 <<< rest.length) < 2 ^ k := by
      rw [Nat.one_shiftLeft]
      exact Nat.pow_lt_pow_right (by norm_num) (by simpa using hlen)
    have hval' : ∀ c' ∈ rest, c' = '0' ∨ c' = '1' ∨ c' = '2' ∨ c' = '3' :=
      fun c' hc' => hval c' (List.mem_cons_of_mem _ hc')
    have hlen' : rest.length ≤ k := by simp at hlen; omega
    rcases hval c (List.mem_cons_self c rest) with h | h | h | h <;> subst h
    · rw [quadKeyToTileXYAux_cons0]
      exact ih hlen' hval' a b ha hb
    · rw [quadKeyToTileXYAux_cons1]
      exact ih hlen' hval' _ b (Nat.or_lt_two_pow ha hmask) hb
    · rw [quadKeyToTileXYAux_cons2]
      exact ih hlen' hval' a _ ha (Nat.or_lt_two_pow hb hmask)
    · rw [quadKeyToTileXYAux_cons3]
      exact ih hlen' hval' _ _ (Nat.or_lt_two_pow ha hmask) (Nat.or_lt_two_pow hb hmask)

/-! ### Claim theorems -/

/-- C1: for every level of detail `L` in `[1, 23]` and tile coordinates
`tileX, tileY` in `[0, 2^L - 1]`, decoding the QuadKey produced by
`tileXYToQuadKey` returns exactly `(tileX, tileY, L)`. -/
theorem quadKeyToTileXY_tileXYToQuadKey (tileX tileY L : Nat)
    (h1 : 1 ≤ L) (h2 : L ≤ 23) (hx : tileX < 2 ^ L) (hy : tileY < 2 ^ L) :
    quadKeyToTileXY (tileXYToQuadKey tileX tileY L) = .ok (tileX, tileY, L) := by
  unfold quadKeyToTileXY
  rw [quadKeyToTileXYAux_encode, tileXYToQuadKey_length]
  simp [Nat.mod_eq_of_lt hx, Nat.mod_eq_of_lt hy]

/-- Witness for C1 at `tileX = 3`, `tileY = 5`, `L = 3`. -/
theorem quadKeyToTileXY_tileXYToQuadKey_witness :
    (1 ≤ 3 ∧ 3 ≤ 23 ∧ 3 < 2 ^ 3 ∧ 5 < 2 ^ 3) ∧
      quadKeyToTileXY (tileXYToQuadKey 3 5 3) = .ok (3, 5, 3) :=
  ⟨by decide, quadKeyToTileXY_tileXYToQuadKey 3 5 3 (by decide) (by decide)
    (by decide) (by decide)⟩

/-- C2 (code evaluation at the failing input): the source computes
`parseInt(256 << levelOfDetail)` with JavaScript's 32-bit signed shift, so
`mapSize(23)` overflows to `-2147483648` instead of the documented
`2147483648`; `mapSize(1) = 512` is as documented. -/
theorem mapSize_overflow_at_23 :
    mapSize 1 = 512 ∧ mapSize 23 = -2147483648 ∧ mapSize 23 ≠ 256 * 2 ^ 23 := by
  refine ⟨by decide, by decide, by decide⟩

/-- C4 (code evaluation at the failing input): `pixelXYToTileXY` performs
plain division, so `pixelXYToTileXY(100, 0)` is `(100/256, 0) = (25/64, 0)`,
a non-integer, and not the floor value `(0, 0)` the claim requires. -/
theorem pixelXYToTileXY_no_floor :
    pixelXYToTileXY 100 0 = (25 / 64, 0) ∧
      Int.floor ((100 : ℚ) / 256) = 0 ∧ ((25 : ℚ) / 64) ≠ ((0 : ℤ) : ℚ) := by
  refine ⟨by norm_num [pixelXYToTileXY], ?_, by norm_num⟩
  rw [Int.floor_eq_zero_iff]
  constructor <;> norm_num

/-- C5: the decoder `quadKeyToTileXY` fails (with the invalid-QuadKey error) if and
only if some character of the input lies outside `{'0','1','2','3'}`; in
the `Except` model no partial result accompanies an error.  In particular
`quadKeyToTileXY "12a3"` fails with this error. -/
theorem quadKeyToTileXY_error_iff (quadKey : List Char) :
    ((∃ e, quadKeyToTileXY quadKey = .error e) ↔
      ∃ c ∈ quadKey, ¬(c = '0' ∨ c = '1' ∨ c = '2' ∨ c = '3')) ∧
    quadKeyToTileXY ['1', '2', 'a', '3'] = .error "Invalid QuadKey digit sequence." := by
  refine ⟨?_, rfl⟩
  rw [← quadKeyToTileXYAux_error_iff quadKey 0 0]
  unfold quadKeyToTileXY
  rcases h : quadKeyToTileXYAux 0 0 quadKey with e | ⟨tx, ty⟩ <;> simp [h]

/-- C6: the string `tileXYToQuadKey tileX tileY L` has exactly `L` characters, all in
`{'0','1','2','3'}`, most-significant bit first: the character at string
position `L - 1 - i` (bit position `i`) is the decimal digit for
`((tileX >> i) & 1) + 2 * ((tileY >> i) & 1)`; and
`tileXYToQuadKey 3 5 3 = "213"`. -/
theorem tileXYToQuadKey_spec (tileX tileY L : Nat)
    (h1 : 1 ≤ L) (h2 : L ≤ 23) (hx : tileX < 2 ^ L) (hy : tileY < 2 ^ L) :
    (tileXYToQuadKey tileX tileY L).length = L ∧
    (∀ c ∈ tileXYToQuadKey tileX tileY L, c = '0' ∨ c = '1' ∨ c = '2' ∨ c = '3') ∧
    (∀ i, i < L → (tileXYToQuadKey tileX tileY L).get? (L - 1 - i) =
      some (Nat.digitChar (((tileX >>> i) &&& 1) + 2 * ((tileY >>> i) &&& 1)))) ∧
    tileXYToQuadKey 3 5 3 = ['2', '1', '3'] := by
  refine ⟨tileXYToQuadKey_length tileX tileY L, tileXYToQuadKey_mem tileX tileY L,
    ?_, by decide⟩
  intro i hi
  rw [tileXYToQuadKey_get? tileX tileY L i hi, quadDigitVal_two_pow,
    shiftRight_and_one, shiftRight_and_one]

/-- Witness for C6 at `tileX = 3`, `tileY = 5`, `L = 3`. -/
theorem tileXYToQuadKey_spec_witness :
    (1 ≤ 3 ∧ 3 ≤ 23 ∧ 3 < 2 ^ 3 ∧ 5 < 2 ^ 3) ∧
      ((tileXYToQuadKey 3 5 3).length = 3 ∧
      (∀ c ∈ tileXYToQuadKey 3 5 3, c = '0' ∨ c = '1' ∨ c = '2' ∨ c = '3') ∧
      (∀ i, i < 3 → (tileXYToQuadKey 3 5 3).get? (3 - 1 - i) =
        some (Nat.digitChar (((3 >>> i) &&& 1) + 2 * ((5 >>> i) &&& 1)))) ∧
      tileXYToQuadKey 3 5 3 = ['2', '1', '3']) :=
  ⟨by decide, tileXYToQuadKey_spec 3 5 3 (by decide) (by decide) (by decide) (by decide)⟩

/-- C7 (code evaluation at the failing input): the doubling law
`mapSize(level + 1) = 2 * mapSize(level)` fails at `level = 22`, because
`mapSize(23)` overflows JavaScript's 32-bit signed shift. -/
theorem mapSize_doubling_fails_at_22 :
    mapSize 23 ≠ 2 * mapSize 22 ∧
      2 * mapSize 22 = 2147483648 ∧ mapSize 23 = -2147483648 := by
  refine ⟨by decide, by decide, by decide⟩

/-- C8: the function `clip` is idempotent: clipping an already clipped value to the same
bounds `minValue ≤ maxValue` changes nothing. -/
theorem clip_idempotent (n minValue maxValue : ℚ) (h : minValue ≤ maxValue) :
    clip (clip n minValue maxValue) minValue maxValue = clip n minValue maxValue := by
  unfold clip
  have h1 : minValue ≤ min (max n minValue) maxValue :=
    le_min (le_max_right n minValue) h
  rw [max_eq_left h1, min_eq_left (min_le_right (max n minValue) maxValue)]

/-- Witness for C8 at `n = 5`, bounds `[0, 1]`. -/
theorem clip_idempotent_witness :
    (0 : ℚ) ≤ 1 ∧ clip (clip 5 0 1) 0 1 = clip 5 0 1 :=
  ⟨by norm_num, clip_idempotent 5 0 1 (by norm_num)⟩

/-- C9: decoding the empty QuadKey string returns `(0, 0, 0)` — level of
detail 0, outside the documented range `[1, 23]` — and raises no error. -/
theorem quadKeyToTileXY_nil : quadKeyToTileXY [] = .ok (0, 0, 0) := rfl

/-- C10: decoding any QuadKey of length `L ∈ [1, 23]` whose characters all
lie in `{'0','1','2','3'}` succeeds with tile coordinates in
`[0, 2^L - 1]` and level of detail `L`. -/
theorem quadKeyToTileXY_ok_range (quadKey : List Char)
    (h1 : 1 ≤ quadKey.length) (h2 : quadKey.length ≤ 23)
    (hval : ∀ c ∈ quadKey, c = '0' ∨ c = '1' ∨ c = '2' ∨ c = '3') :
    ∃ tileX tileY, quadKeyToTileXY quadKey = .ok (tileX, tileY, quadKey.length) ∧
      tileX < 2 ^ quadKey.length ∧ tileY < 2 ^ quadKey.length := by
  obtain ⟨tx, ty, haux, hbx, hby⟩ :=
    quadKeyToTileXYAux_ok_bound quadKey.length quadKey le_rfl hval 0 0
      (Nat.two_pow_pos _) (Nat.two_pow_pos _)
  refine ⟨tx, ty, ?_, hbx, hby⟩
  unfold quadKeyToTileXY
  rw [haux]

/-- Witness for C10 at `quadKey = "213"`. -/
theorem quadKeyToTileXY_ok_range_witness :
    (1 ≤ (['2', '1', '3'] : List Char).length ∧
      (['2', '1', '3'] : List Char).length ≤ 23 ∧
      ∀ c ∈ (['2', '1', '3'] : List Char), c = '0' ∨ c = '1' ∨ c = '2' ∨ c = '3') ∧
    ∃ tileX tileY,
      quadKeyToTileXY ['2', '1', '3'] =
        .ok (tileX, tileY, (['2', '1', '3'] : List Char).length) ∧
      tileX < 2 ^ (['2', '1', '3'] : List Char).length ∧
      tileY < 2 ^ (['2', '1', '3'] : List Char).length :=
  ⟨by decide, quadKeyToTileXY_ok_range ['2', '1', '3'] (by decide) (by decide)
    (by decide)⟩

end TileSystem
